import Mathlib

/-!
Shallow embedding of `src/pirata_nft_contract.py` (a SmartPy FA2 NFT
contract) and proofs about its transfer, operator, mint, query and
usage-counter logic.

Big maps are modelled as association lists with decidable equality, the
operator big map (whose values are all `unit`) as a list of keys, and each
entry point as a function `... → Except FA2Error Storage`; `sp.verify`
failures and big-map access failures become `Except.error`.  The host's
call atomicity (a failed call leaves the storage unchanged) is `applyCall`.
-/

namespace PirataNft

abbrev Address := String

/-- Michelson byte sequences, as far as this contract inspects them: either
the result of `sp.pack` on an int-or-nat value, or opaque bytes such as an
ipfs URI. -/
inductive Bytes where
  | packedInt (n : Int)
  | raw (s : String)
deriving DecidableEq, Repr

/-- `sp.pack` applied to a `sp.TIntOrNat` value. -/
def pack (n : Int) : Bytes := Bytes.packedInt n

/-- `sp.unpack b sp.TIntOrNat`: succeeds exactly on bytes produced by
`pack`. -/
def unpack : Bytes → Option Int
  | Bytes.packedInt n => some n
  | Bytes.raw _ => none

/-- Big-map lookup (first matching key). -/
def alookup {α β : Type} [DecidableEq α] : List (α × β) → α → Option β
  | [], _ => none
  | (k, v) :: rest, key => if key = k then some v else alookup rest key

/-- Big-map assignment `m[key] = val`: replace in place, or add the binding
when the key is absent. -/
def aset {α β : Type} [DecidableEq α] : List (α × β) → α → β → List (α × β)
  | [], key, val => [(key, val)]
  | (k, v) :: rest, key, val =>
    if key = k then (k, val) :: rest else (k, v) :: aset rest key val

/-- Key of the `operators` big map (`t_operator_permission`). -/
structure OperatorPermission where
  owner : Address
  operator : Address
  token_id : Nat
deriving DecidableEq, Repr

/-- `operators.contains p`: the `operators` big map has `unit` values, so it
is modelled as its key list. -/
def opmem : List OperatorPermission → OperatorPermission → Bool
  | [], _ => false
  | q :: rest, p => if q = p then true else opmem rest p

/-- `operators[p] = sp.unit`: key-set insertion (no duplicates). -/
def opinsert (l : List OperatorPermission) (p : OperatorPermission) :
    List OperatorPermission :=
  if opmem l p then l else p :: l

/-- `del operators[p]`: key removal; removing an absent key is a no-op
(Michelson `UPDATE ... NONE`). -/
def opremove : List OperatorPermission → OperatorPermission → List OperatorPermission
  | [], _ => []
  | q :: rest, p => if q = p then opremove rest p else q :: opremove rest p

/-- A value of the `token_metadata` big map. -/
structure TokenMetadataEntry where
  token_id : Nat
  token_info : List (String × Bytes)
deriving DecidableEq, Repr

/-- One inner transaction of `t_transfer_batch` (`to_`, `token_id`,
`amount`). -/
structure TransferTx where
  to_ : Address
  token_id : Nat
  amount : Nat
deriving DecidableEq, Repr

/-- One element of `t_transfer_params` (`from_` with its `txs`). -/
structure TransferBatch where
  from_ : Address
  txs : List TransferTx
deriving DecidableEq, Repr

/-- One element of `t_update_operators_params`. -/
inductive UpdateOperatorAction where
  | add_operator (p : OperatorPermission)
  | remove_operator (p : OperatorPermission)
deriving DecidableEq, Repr

/-- Failure reasons.  The `FA2_*` constructors are the contract's
`sp.verify` / `sp.failwith` messages; `MissingBigMapKey` is the runtime
failure of reading `m[k]` on an absent key, and `OpenSomeFailed` the
failure of `sp.unpack(...).open_some()`. -/
inductive FA2Error where
  | FA2_TOKEN_UNDEFINED
  | FA2_NOT_OPERATOR
  | FA2_NOT_OWNER
  | FA2_NOT_ADMIN
  | FA2_INSUFFICIENT_BALANCE
  | FA2_TX_DENIED
  | FA2_OPERATORS_UNSUPPORTED
  | MissingBigMapKey
  | OpenSomeFailed
deriving DecidableEq, Repr

/-- The storage of the `Nft` contract: `ledger` and `last_token_id` from
`Fa2Nft.__init__`, `token_metadata` and `operators` from `Common` and its
policy, `administrator` from the `Admin` mixin, `metadata` from
`ChangeMetadata`. -/
structure Storage where
  ledger : List (Nat × Address)
  token_metadata : List (Nat × TokenMetadataEntry)
  operators : List OperatorPermission
  metadata : List (String × Bytes)
  administrator : Address
  last_token_id : Nat
deriving DecidableEq, Repr

/-- `OwnerOrOperatorTransfer.supports_transfer`. -/
def supports_transfer : Bool := true

/-- `OwnerOrOperatorTransfer.supports_operator`. -/
def supports_operator : Bool := true

/-- `Common.is_defined`. -/
def is_defined (s : Storage) (token_id : Nat) : Bool :=
  (alookup s.token_metadata token_id).isSome

/-- `OwnerOrOperatorTransfer.check_tx_transfer_permissions` (the `to_`
argument is unused by the policy, as in the source). -/
def check_tx_transfer_permissions (s : Storage) (sender from_ : Address)
    (token_id : Nat) : Except FA2Error Unit :=
  if sender = from_ ∨ opmem s.operators ⟨from_, sender, token_id⟩ = true then
    Except.ok ()
  else Except.error FA2Error.FA2_NOT_OPERATOR

/-- `OwnerOrOperatorTransfer.check_operator_update_permissions`. -/
def check_operator_update_permissions (sender : Address)
    (p : OperatorPermission) : Except FA2Error Unit :=
  if p.owner = sender then Except.ok () else Except.error FA2Error.FA2_NOT_OWNER

/-- `OwnerOrOperatorTransfer.is_operator` / the `is_operator` view. -/
def is_operator (s : Storage) (p : OperatorPermission) : Bool :=
  opmem s.operators p

/-- `Fa2Nft.transfer_tx_`: the `FA2_INSUFFICIENT_BALANCE` verify reads
`ledger[token_id]`, which fails on an absent key before the verify can. -/
def transfer_tx_ (s : Storage) (from_ : Address) (tx : TransferTx) :
    Except FA2Error Storage :=
  match alookup s.ledger tx.token_id with
  | none => Except.error FA2Error.MissingBigMapKey
  | some cur =>
    if tx.amount = 1 ∧ cur = from_ then
      Except.ok { s with ledger := aset s.ledger tx.token_id tx.to_ }
    else Except.error FA2Error.FA2_INSUFFICIENT_BALANCE

/-- One leg of `Common.transfer`: the ordering of checks is
1) token_undefined, 2) transfer permission, 3) balance; `amount == 0` skips
the mutation. -/
def transfer_one (sender from_ : Address) (s : Storage) (tx : TransferTx) :
    Except FA2Error Storage :=
  if is_defined s tx.token_id then
    match check_tx_transfer_permissions s sender from_ tx.token_id with
    | Except.error e => Except.error e
    | Except.ok _ =>
      if tx.amount > 0 then transfer_tx_ s from_ tx else Except.ok s
  else Except.error FA2Error.FA2_TOKEN_UNDEFINED

/-- The inner `sp.for_("tx", transfer.txs)` loop of `Common.transfer`. -/
def transfer_txs (sender from_ : Address) :
    Storage → List TransferTx → Except FA2Error Storage
  | s, [] => Except.ok s
  | s, tx :: rest =>
    match transfer_one sender from_ s tx with
    | Except.error e => Except.error e
    | Except.ok s1 => transfer_txs sender from_ s1 rest

/-- The outer `sp.for_("transfer", batch)` loop of `Common.transfer`. -/
def transfer_batches (sender : Address) :
    Storage → List TransferBatch → Except FA2Error Storage
  | s, [] => Except.ok s
  | s, b :: rest =>
    match transfer_txs sender b.from_ s b.txs with
    | Except.error e => Except.error e
    | Except.ok s1 => transfer_batches sender s1 rest

/-- The `transfer` entry point of `Common`. -/
def transfer (sender : Address) (s : Storage) (batch : List TransferBatch) :
    Except FA2Error Storage :=
  if supports_transfer then transfer_batches sender s batch
  else Except.error FA2Error.FA2_TX_DENIED

/-- One item of the `update_operators` batch. -/
def update_operators_one (sender : Address) (s : Storage)
    (a : UpdateOperatorAction) : Except FA2Error Storage :=
  match a with
  | UpdateOperatorAction.add_operator p =>
    match check_operator_update_permissions sender p with
    | Except.error e => Except.error e
    | Except.ok _ => Except.ok { s with operators := opinsert s.operators p }
  | UpdateOperatorAction.remove_operator p =>
    match check_operator_update_permissions sender p with
    | Except.error e => Except.error e
    | Except.ok _ => Except.ok { s with operators := opremove s.operators p }

/-- The `sp.for_("action", batch)` loop of `Common.update_operators`. -/
def update_operators_list (sender : Address) :
    Storage → List UpdateOperatorAction → Except FA2Error Storage
  | s, [] => Except.ok s
  | s, a :: rest =>
    match update_operators_one sender s a with
    | Except.error e => Except.error e
    | Except.ok s1 => update_operators_list sender s1 rest

/-- The `update_operators` entry point of `Common`. -/
def update_operators (sender : Address) (s : Storage)
    (batch : List UpdateOperatorAction) : Except FA2Error Storage :=
  if supports_operator then update_operators_list sender s batch
  else Except.error FA2Error.FA2_OPERATORS_UNSUPPORTED

/-- `Fa2Nft.balance_`. -/
def balance_ (s : Storage) (owner : Address) (token_id : Nat) :
    Except FA2Error Nat :=
  if is_defined s token_id then
    match alookup s.ledger token_id with
    | none => Except.error FA2Error.MissingBigMapKey
    | some a => Except.ok (if a = owner then 1 else 0)
  else Except.error FA2Error.FA2_TOKEN_UNDEFINED

/-- `Fa2Nft.supply_`. -/
def supply_ (s : Storage) (token_id : Nat) : Except FA2Error Nat :=
  if is_defined s token_id then Except.ok 1
  else Except.error FA2Error.FA2_TOKEN_UNDEFINED

/-- The `total_supply` view of `Common`: it verifies definedness itself and
then calls `supply_`, which verifies it again. -/
def total_supply (s : Storage) (token_id : Nat) : Except FA2Error Nat :=
  if is_defined s token_id then supply_ s token_id
  else Except.error FA2Error.FA2_TOKEN_UNDEFINED

/-- The `get_owner` view of `Nft`. -/
def get_owner (s : Storage) (token_id : Nat) : Except FA2Error Address :=
  match alookup s.ledger token_id with
  | none => Except.error FA2Error.MissingBigMapKey
  | some a => Except.ok a

/-- `Admin.is_administrator`. -/
def is_administrator (s : Storage) (sender : Address) : Bool :=
  sender = s.administrator

/-- The `set_administrator` entry point of `Admin`. -/
def set_administrator (sender : Address) (s : Storage) (newAdmin : Address) :
    Except FA2Error Storage :=
  if is_administrator s sender then Except.ok { s with administrator := newAdmin }
  else Except.error FA2Error.FA2_NOT_ADMIN

/-- The `set_metadata` entry point of `ChangeMetadata`. -/
def set_metadata (sender : Address) (s : Storage) (m : List (String × Bytes)) :
    Except FA2Error Storage :=
  if is_administrator s sender then Except.ok { s with metadata := m }
  else Except.error FA2Error.FA2_NOT_ADMIN

/-- The `mint` entry point of `Nft`. -/
def mint (sender : Address) (s : Storage) (owner : Address)
    (token_info : List (String × Bytes)) : Except FA2Error Storage :=
  if is_administrator s sender then
    let token_id := s.last_token_id
    Except.ok { s with
      ledger := aset s.ledger token_id owner,
      token_metadata := aset s.token_metadata token_id ⟨token_id, token_info⟩,
      last_token_id := s.last_token_id + 1 }
  else Except.error FA2Error.FA2_NOT_ADMIN

/-- The `get_usage` view of `Nft`. -/
def get_usage (s : Storage) (token_id : Nat) : Except FA2Error Int :=
  match alookup s.token_metadata token_id with
  | none => Except.error FA2Error.MissingBigMapKey
  | some entry =>
    match alookup entry.token_info "usage" with
    | none => Except.error FA2Error.MissingBigMapKey
    | some b =>
      match unpack b with
      | none => Except.error FA2Error.OpenSomeFailed
      | some n => Except.ok n

/-- The `update_usage` entry point of `Nft`: reads
`token_metadata[token_id].token_info["usage"]` with no prior
`is_defined` check and no authorization check, unpacks it, and writes back
the packed successor. -/
def update_usage (s : Storage) (token_id : Nat) : Except FA2Error Storage :=
  match alookup s.token_metadata token_id with
  | none => Except.error FA2Error.MissingBigMapKey
  | some entry =>
    match alookup entry.token_info "usage" with
    | none => Except.error FA2Error.MissingBigMapKey
    | some b =>
      match unpack b with
      | none => Except.error FA2Error.OpenSomeFailed
      | some n =>
        Except.ok { s with
          token_metadata :=
            aset s.token_metadata token_id
              ⟨entry.token_id, aset entry.token_info "usage" (pack (n + 1))⟩ }

/-- `update_usage` viewed with the caller identity the host supplies: the
entry point never reads `sp.sender`, so the sender is ignored. -/
def update_usage_entry (_sender : Address) (s : Storage) (token_id : Nat) :
    Except FA2Error Storage :=
  update_usage s token_id

/-- Host call semantics: an entry point call is atomic, so a failed call
leaves the storage unchanged and a successful one installs the returned
storage. -/
def applyCall (s : Storage) (r : Except FA2Error Storage) : Storage :=
  match r with
  | Except.ok s1 => s1
  | Except.error _ => s

/-- The bare ledger mutation of one transfer leg, with every check erased:
used to state what a fully successful `transfer` call computes. -/
def apply_tx (_from_ : Address) (s : Storage) (tx : TransferTx) : Storage :=
  if tx.amount > 0 then { s with ledger := aset s.ledger tx.token_id tx.to_ }
  else s

/-- In-order application of the bare mutations of a whole transfer batch. -/
def apply_batches (s : Storage) (batch : List TransferBatch) : Storage :=
  batch.foldl (fun acc b => b.txs.foldl (apply_tx b.from_) acc) s

/-- The owner field of an `update_operators` item. -/
def action_owner : UpdateOperatorAction → Address
  | UpdateOperatorAction.add_operator p => p.owner
  | UpdateOperatorAction.remove_operator p => p.owner

/-- The token-id bookkeeping invariant: the registered token ids are
exactly `0, ..., last_token_id - 1`, and every ledger entry is on a
registered id. -/
def Inv (s : Storage) : Prop :=
  (∀ i : Nat, (alookup s.token_metadata i).isSome = true ↔ i < s.last_token_id) ∧
  (∀ i : Nat, ∀ a : Address, alookup s.ledger i = some a → i < s.last_token_id)

/-- The token-info map the repository's test mints token 0 with. -/
def infoEx : List (String × Bytes) :=
  [("", Bytes.raw "ipfs://QmTKHffrVCKda3WKs1qyyJna7EjHM5Wdzf3LJVeejgaz61"),
   ("usage", pack 0)]

/-- The storage right after origination with administrator `abby`. -/
def s0ex : Storage :=
  { ledger := [], token_metadata := [], operators := [], metadata := [],
    administrator := "tz1PaBo1wAwoSipwW2ubbotpywAZaPuC3oQ9", last_token_id := 0 }

/-- The storage after the test's mint of token 0 to `tanoy`. -/
def s1ex : Storage :=
  { ledger := [(0, "tz1Vf4cQ6dcywPXVY6QZnsMELEzXNSX9yMxL")],
    token_metadata := [(0, ⟨0, infoEx⟩)],
    operators := [], metadata := [],
    administrator := "tz1PaBo1wAwoSipwW2ubbotpywAZaPuC3oQ9", last_token_id := 1 }

/-! ### Big-map lemmas -/

theorem alookup_aset_self {α β : Type} [DecidableEq α] (l : List (α × β)) (k : α)
    (v : β) : alookup (aset l k v) k = some v := by
  induction l with
  | nil => simp [aset, alookup]
  | cons hd tl ih =>
    obtain ⟨k1, v1⟩ := hd
    by_cases h : k = k1
    · simp [aset, alookup, h]
    · simp [aset, alookup, h, ih]

theorem alookup_aset_ne {α β : Type} [DecidableEq α] (l : List (α × β)) (k j : α)
    (v : β) (h : j ≠ k) : alookup (aset l k v) j = alookup l j := by
  induction l with
  | nil => simp [aset, alookup, h]
  | cons hd tl ih =>
    obtain ⟨k1, v1⟩ := hd
    by_cases h1 : k = k1
    · subst h1
      simp [aset, alookup, h, ih]
    · simp [aset, alookup, h1, ih]

theorem alookup_aset_cases {α β : Type} [DecidableEq α] (l : List (α × β)) (k j : α)
    (v w : β) (h : alookup (aset l k v) j = some w) :
    (j = k ∧ w = v) ∨ (j ≠ k ∧ alookup l j = some w) := by
  by_cases hj : j = k
  · subst hj
    rw [alookup_aset_self] at h
    exact Or.inl ⟨rfl, (Option.some.inj h).symm⟩
  · rw [alookup_aset_ne l k j v hj] at h
    exact Or.inr ⟨hj, h⟩

theorem isSome_alookup_aset {α β : Type} [DecidableEq α] (l : List (α × β)) (k j : α)
    (v : β) :
    (alookup (aset l k v) j).isSome = true ↔ j = k ∨ (alookup l j).isSome = true := by
  by_cases hj : j = k
  · subst hj
    simp [alookup_aset_self]
  · simp [alookup_aset_ne l k j v hj, hj]

theorem opmem_opremove_self (l : List OperatorPermission) (p : OperatorPermission) :
    opmem (opremove l p) p = false := by
  induction l with
  | nil => rfl
  | cons q rest ih =>
    by_cases h : q = p
    · simp [opremove, h, ih]
    · simp [opremove, opmem, h, ih]

theorem opremove_opremove (l : List OperatorPermission) (p : OperatorPermission) :
    opremove (opremove l p) p = opremove l p := by
  induction l with
  | nil => rfl
  | cons q rest ih =>
    by_cases h : q = p
    · simp [opremove, h, ih]
    · simp [opremove, opmem, h, ih]

theorem opremove_of_not_mem (l : List OperatorPermission) (p : OperatorPermission)
    (h : opmem l p = false) : opremove l p = l := by
  induction l with
  | nil => rfl
  | cons q rest ih =>
    by_cases hq : q = p
    · simp [opmem, hq] at h
    · simp [opmem, hq] at h
      simp [opremove, hq, ih h]

/-! ### What a successful transfer computes -/

theorem transfer_tx_ok_eq (s s1 : Storage) (from_ : Address) (tx : TransferTx)
    (h : transfer_tx_ s from_ tx = Except.ok s1) :
    s1 = { s with ledger := aset s.ledger tx.token_id tx.to_ } := by
  unfold transfer_tx_ at h
  cases hl : alookup s.ledger tx.token_id with
  | none => rw [hl] at h; cases h
  | some cur =>
    rw [hl] at h
    by_cases hc : tx.amount = 1 ∧ cur = from_
    · simp only [hc, if_true] at h
      cases h
      rfl
    · simp only [hc, if_false] at h
      cases h

theorem transfer_one_ok_eq (sender from_ : Address) (s s1 : Storage)
    (tx : TransferTx) (h : transfer_one sender from_ s tx = Except.ok s1) :
    s1 = apply_tx from_ s tx := by
  unfold transfer_one at h
  by_cases hdef : is_defined s tx.token_id = true
  · rw [if_pos hdef] at h
    cases hchk : check_tx_transfer_permissions s sender from_ tx.token_id with
    | error e => rw [hchk] at h; cases h
    | ok u =>
      rw [hchk] at h
      by_cases ha : tx.amount > 0
      · rw [if_pos ha] at h
        rw [apply_tx, if_pos ha]
        exact transfer_tx_ok_eq s s1 from_ tx h
      · rw [if_neg ha] at h
        rw [apply_tx, if_neg ha]
        cases h
        rfl
  · rw [if_neg hdef] at h
    cases h

theorem transfer_txs_ok_eq (sender from_ : Address) (txs : List TransferTx) :
    ∀ s s1, transfer_txs sender from_ s txs = Except.ok s1 →
      s1 = txs.foldl (apply_tx from_) s := by
  induction txs with
  | nil =>
    intro s s1 h
    cases h
    rfl
  | cons tx rest ih =>
    intro s s1 h
    unfold transfer_txs at h
    cases h1 : transfer_one sender from_ s tx with
    | error e => rw [h1] at h; cases h
    | ok s2 =>
      rw [h1] at h
      have h2 := transfer_one_ok_eq sender from_ s s2 tx h1
      subst h2
      simpa [List.foldl] using ih _ _ h

theorem transfer_batches_ok_eq (sender : Address) (batch : List TransferBatch) :
    ∀ s s1, transfer_batches sender s batch = Except.ok s1 →
      s1 = apply_batches s batch := by
  induction batch with
  | nil =>
    intro s s1 h
    cases h
    rfl
  | cons b rest ih =>
    intro s s1 h
    unfold transfer_batches at h
    cases h1 : transfer_txs sender b.from_ s b.txs with
    | error e => rw [h1] at h; cases h
    | ok s2 =>
      rw [h1] at h
      have h2 := transfer_txs_ok_eq sender b.from_ b.txs s s2 h1
      subst h2
      simpa [apply_batches, List.foldl] using ih _ _ h

/-! ### Claims -/

/-- C1: for a transfer leg on a defined token id the authorization check
succeeds iff the caller equals the batch's `from_` owner or the triple
`(from_, caller, token_id)` is in the operator set; when neither holds the
leg fails `FA2_NOT_OPERATOR` and the storage (hence the ledger) is left
unchanged. -/
theorem C1_transfer_authorization (s : Storage) (sender from_ : Address)
    (tx : TransferTx) (hdef : is_defined s tx.token_id = true) :
    (check_tx_transfer_permissions s sender from_ tx.token_id = Except.ok () ↔
      (sender = from_ ∨ opmem s.operators ⟨from_, sender, tx.token_id⟩ = true)) ∧
    (¬ (sender = from_ ∨ opmem s.operators ⟨from_, sender, tx.token_id⟩ = true) →
      transfer_one sender from_ s tx = Except.error FA2Error.FA2_NOT_OPERATOR ∧
      applyCall s (transfer_one sender from_ s tx) = s) := by
  constructor
  · constructor
    · intro h
      by_contra hn
      rw [check_tx_transfer_permissions, if_neg hn] at h
      cases h
    · intro h
      rw [check_tx_transfer_permissions, if_pos h]
  · intro hn
    have he : transfer_one sender from_ s tx =
        Except.error FA2Error.FA2_NOT_OPERATOR := by
      unfold transfer_one
      rw [if_pos hdef, check_tx_transfer_permissions, if_neg hn]
    refine ⟨he, ?_⟩
    rw [he]
    rfl

/-- C1 instantiated: a caller who is neither the owner of token 0 nor a
granted operator fails `FA2_NOT_OPERATOR`. -/
theorem C1_transfer_authorization_witness :
    transfer_one "tz1Carol" "tz1Vf4cQ6dcywPXVY6QZnsMELEzXNSX9yMxL" s1ex
        ⟨"tz1PaBo1wAwoSipwW2ubbotpywAZaPuC3oQ9", 0, 1⟩ =
      Except.error FA2Error.FA2_NOT_OPERATOR :=
  ((C1_transfer_authorization s1ex "tz1Carol"
      "tz1Vf4cQ6dcywPXVY6QZnsMELEzXNSX9yMxL"
      ⟨"tz1PaBo1wAwoSipwW2ubbotpywAZaPuC3oQ9", 0, 1⟩ (by decide)).2
      (by decide)).1

/-- C2: the `transfer` entry point is all-or-nothing over its batch: either
some leg fails, the call returns that error and the post-call storage equals
the pre-call storage, or every leg succeeds and the result is exactly the
legs' ledger mutations applied in order. -/
theorem C2_transfer_atomicity (sender : Address) (s : Storage)
    (batch : List TransferBatch) :
    ((∃ e, transfer sender s batch = Except.error e) ∧
      applyCall s (transfer sender s batch) = s) ∨
    transfer sender s batch = Except.ok (apply_batches s batch) := by
  cases h : transfer_batches sender s batch with
  | error e =>
    left
    constructor
    · exact ⟨e, by simp [transfer, supports_transfer, h]⟩
    · simp [transfer, supports_transfer, h, applyCall]
  | ok s1 =>
    right
    have h2 := transfer_batches_ok_eq sender batch s s1 h
    simp [transfer, supports_transfer, h, h2]

/-- C3: within each leg the checks run in the fixed order existence,
authorization, balance: an undefined token id fails `FA2_TOKEN_UNDEFINED`
whatever the caller is, and a defined id with an unauthorized caller fails
`FA2_NOT_OPERATOR` whatever the ledger holds. -/
theorem C3_check_ordering (s : Storage) (sender from_ : Address)
    (tx : TransferTx) :
    (is_defined s tx.token_id = false →
      transfer_one sender from_ s tx = Except.error FA2Error.FA2_TOKEN_UNDEFINED) ∧
    (is_defined s tx.token_id = true →
      ¬ (sender = from_ ∨ opmem s.operators ⟨from_, sender, tx.token_id⟩ = true) →
      transfer_one sender from_ s tx = Except.error FA2Error.FA2_NOT_OPERATOR) := by
  constructor
  · intro h
    unfold transfer_one
    simp [h]
  · intro hdef hn
    unfold transfer_one
    rw [if_pos hdef, check_tx_transfer_permissions, if_neg hn]

/-- C4: on an authorized leg over a defined token id whose current ledger
owner is `cur`: amount 0 performs no mutation, a nonzero amount fails
`FA2_INSUFFICIENT_BALANCE` unless it equals 1 and `cur` is the batch owner,
and in that last case the ledger entry of the token moves to `to_`. -/
theorem C4_balance_and_mutation (s : Storage) (sender from_ : Address)
    (tx : TransferTx) (cur : Address)
    (hdef : is_defined s tx.token_id = true)
    (hauth : sender = from_ ∨ opmem s.operators ⟨from_, sender, tx.token_id⟩ = true)
    (hled : alookup s.ledger tx.token_id = some cur) :
    (tx.amount = 0 → transfer_one sender from_ s tx = Except.ok s) ∧
    (tx.amount ≠ 0 → ¬ (tx.amount = 1 ∧ cur = from_) →
      transfer_one sender from_ s tx =
        Except.error FA2Error.FA2_INSUFFICIENT_BALANCE) ∧
    (tx.amount = 1 → cur = from_ →
      transfer_one sender from_ s tx =
        Except.ok { s with ledger := aset s.ledger tx.token_id tx.to_ }) := by
  have hchk : check_tx_transfer_permissions s sender from_ tx.token_id =
      Except.ok () := by
    rw [check_tx_transfer_permissions, if_pos hauth]
  refine ⟨?_, ?_, ?_⟩
  · intro h0
    unfold transfer_one
    simp [hdef, hchk, h0]
  · intro hne hbad
    have hpos : tx.amount > 0 := Nat.pos_of_ne_zero hne
    unfold transfer_one transfer_tx_
    simp [hdef, hchk, hpos, hled, hbad]
  · intro h1 hcur
    have hpos : tx.amount > 0 := by omega
    unfold transfer_one transfer_tx_
    simp [hdef, hchk, hpos, hled, h1, hcur]

/-- C4 instantiated: the owner of token 0 transfers it with amount 1 and the
ledger entry moves to the destination address. -/
theorem C4_balance_and_mutation_witness :
    transfer_one "tz1Vf4cQ6dcywPXVY6QZnsMELEzXNSX9yMxL"
        "tz1Vf4cQ6dcywPXVY6QZnsMELEzXNSX9yMxL" s1ex
        ⟨"tz1PaBo1wAwoSipwW2ubbotpywAZaPuC3oQ9", 0, 1⟩ =
      Except.ok { s1ex with
        ledger := aset s1ex.ledger 0 "tz1PaBo1wAwoSipwW2ubbotpywAZaPuC3oQ9" } :=
  (C4_balance_and_mutation s1ex "tz1Vf4cQ6dcywPXVY6QZnsMELEzXNSX9yMxL"
      "tz1Vf4cQ6dcywPXVY6QZnsMELEzXNSX9yMxL"
      ⟨"tz1PaBo1wAwoSipwW2ubbotpywAZaPuC3oQ9", 0, 1⟩
      "tz1Vf4cQ6dcywPXVY6QZnsMELEzXNSX9yMxL"
      (by decide) (Or.inl rfl) (by decide)).2.2 rfl rfl

/-- C5: `mint` is admin-gated: a non-administrator caller fails
`FA2_NOT_ADMIN` with the storage unchanged; the administrator registers the
fresh id `last_token_id` with the given token info, records `owner` for it
in the ledger, and increments `last_token_id` by exactly 1. -/
theorem C5_mint (s : Storage) (sender owner : Address)
    (ti : List (String × Bytes)) :
    (is_administrator s sender = false →
      mint sender s owner ti = Except.error FA2Error.FA2_NOT_ADMIN ∧
      applyCall s (mint sender s owner ti) = s) ∧
    (is_administrator s sender = true →
      ∀ s1, mint sender s owner ti = Except.ok s1 →
        alookup s1.token_metadata s.last_token_id = some ⟨s.last_token_id, ti⟩ ∧
        alookup s1.ledger s.last_token_id = some owner ∧
        s1.last_token_id = s.last_token_id + 1 ∧
        s1 = { s with
          ledger := aset s.ledger s.last_token_id owner,
          token_metadata :=
            aset s.token_metadata s.last_token_id ⟨s.last_token_id, ti⟩,
          last_token_id := s.last_token_id + 1 }) := by
  constructor
  · intro h
    have he : mint sender s owner ti = Except.error FA2Error.FA2_NOT_ADMIN := by
      unfold mint
      simp [h]
    refine ⟨he, ?_⟩
    rw [he]
    rfl
  · intro h s1 h1
    unfold mint at h1
    rw [if_pos h] at h1
    cases h1
    exact ⟨alookup_aset_self s.token_metadata s.last_token_id ⟨s.last_token_id, ti⟩,
      alookup_aset_self s.ledger s.last_token_id owner, rfl, rfl⟩

/-! ### Operator-update helpers -/

theorem update_operators_one_owner_ok (sender : Address) (s : Storage)
    (a : UpdateOperatorAction) (h : action_owner a = sender) :
    ∃ s1, update_operators_one sender s a = Except.ok s1 := by
  cases a with
  | add_operator p =>
    refine ⟨{ s with operators := opinsert s.operators p }, ?_⟩
    unfold update_operators_one check_operator_update_permissions
    simp [action_owner] at h
    simp [h]
  | remove_operator p =>
    refine ⟨{ s with operators := opremove s.operators p }, ?_⟩
    unfold update_operators_one check_operator_update_permissions
    simp [action_owner] at h
    simp [h]

theorem update_operators_one_not_owner (sender : Address) (s : Storage)
    (a : UpdateOperatorAction) (h : action_owner a ≠ sender) :
    update_operators_one sender s a = Except.error FA2Error.FA2_NOT_OWNER := by
  cases a with
  | add_operator p =>
    unfold update_operators_one check_operator_update_permissions
    simp [action_owner] at h
    simp [h]
  | remove_operator p =>
    unfold update_operators_one check_operator_update_permissions
    simp [action_owner] at h
    simp [h]

theorem update_operators_list_ok_of_owned (sender : Address)
    (acts : List UpdateOperatorAction) :
    ∀ s, (∀ a ∈ acts, action_owner a = sender) →
      ∃ s1, update_operators_list sender s acts = Except.ok s1 := by
  induction acts with
  | nil =>
    intro s _
    exact ⟨s, rfl⟩
  | cons a rest ih =>
    intro s h
    obtain ⟨s2, h2⟩ := update_operators_one_owner_ok sender s a (h a (by simp))
    obtain ⟨s3, h3⟩ := ih s2 (fun b hb => h b (by simp [hb]))
    refine ⟨s3, ?_⟩
    unfold update_operators_list
    rw [h2]
    exact h3

theorem update_operators_list_err_of_bad (sender : Address)
    (acts : List UpdateOperatorAction) :
    ∀ s, (∃ a ∈ acts, action_owner a ≠ sender) →
      update_operators_list sender s acts =
        Except.error FA2Error.FA2_NOT_OWNER := by
  induction acts with
  | nil =>
    intro s h
    obtain ⟨a, ha, _⟩ := h
    cases ha
  | cons a rest ih =>
    intro s h
    by_cases h1 : action_owner a = sender
    · obtain ⟨s2, h2⟩ := update_operators_one_owner_ok sender s a h1
      have hrest : ∃ b ∈ rest, action_owner b ≠ sender := by
        obtain ⟨b, hb, hbo⟩ := h
        rcases List.mem_cons.mp hb with hba | hbr
        · rw [hba] at hbo
          exact absurd h1 hbo
        · exact ⟨b, hbr, hbo⟩
      unfold update_operators_list
      rw [h2]
      exact ih s2 hrest
    · unfold update_operators_list
      rw [update_operators_one_not_owner sender s a h1]

/-- C7: an `update_operators` item is applied iff the caller equals the
permission's owner; if any item of the batch names a different owner the
whole call fails `FA2_NOT_OWNER` and the storage is unchanged, so no grant
or revocation from the batch survives. -/
theorem C7_operator_update_auth (sender : Address) (s : Storage)
    (acts : List UpdateOperatorAction) :
    (∀ a, update_operators_one sender s a =
        Except.error FA2Error.FA2_NOT_OWNER ↔ action_owner a ≠ sender) ∧
    ((∀ a ∈ acts, action_owner a = sender) →
      ∃ s1, update_operators sender s acts = Except.ok s1) ∧
    ((∃ a ∈ acts, action_owner a ≠ sender) →
      update_operators sender s acts = Except.error FA2Error.FA2_NOT_OWNER ∧
      applyCall s (update_operators sender s acts) = s) := by
  refine ⟨?_, ?_, ?_⟩
  · intro a
    constructor
    · intro h
      by_contra hn
      obtain ⟨s2, h2⟩ := update_operators_one_owner_ok sender s a hn
      rw [h2] at h
      cases h
    · exact update_operators_one_not_owner sender s a
  · intro h
    obtain ⟨s1, h1⟩ := update_operators_list_ok_of_owned sender acts s h
    exact ⟨s1, by simp [update_operators, supports_operator, h1]⟩
  · intro h
    have he := update_operators_list_err_of_bad sender acts s h
    have he2 : update_operators sender s acts =
        Except.error FA2Error.FA2_NOT_OWNER := by
      simp [update_operators, supports_operator, he]
    refine ⟨he2, ?_⟩
    rw [he2]
    rfl

theorem opmem_opinsert_self (l : List OperatorPermission)
    (p : OperatorPermission) : opmem (opinsert l p) p = true := by
  unfold opinsert
  by_cases h : opmem l p = true
  · simp [h]
  · simp [h, opmem]

/-- C8: operator grant and revoke are idempotent at the storage level: for a
permission whose owner is the caller, adding an already-present grant
succeeds and leaves `is_operator` true (the storage is even unchanged),
removing an absent grant succeeds without error, and revoking twice equals
revoking once. -/
theorem C8_operator_idempotence (s : Storage) (sender : Address)
    (p : OperatorPermission) (h : p.owner = sender) :
    (opmem s.operators p = true →
      update_operators sender s [UpdateOperatorAction.add_operator p] =
        Except.ok s ∧ is_operator s p = true) ∧
    (update_operators sender s [UpdateOperatorAction.remove_operator p] =
        Except.ok { s with operators := opremove s.operators p } ∧
      is_operator { s with operators := opremove s.operators p } p = false) ∧
    (opremove (opremove s.operators p) p = opremove s.operators p) ∧
    (opmem s.operators p = false → opremove s.operators p = s.operators) ∧
    (∀ s1, update_operators sender s [UpdateOperatorAction.add_operator p] =
        Except.ok s1 → is_operator s1 p = true) := by
  refine ⟨?_, ⟨?_, ?_⟩, opremove_opremove s.operators p,
    opremove_of_not_mem s.operators p, ?_⟩
  · intro hmem
    constructor
    · simp [update_operators, supports_operator, update_operators_list,
        update_operators_one, check_operator_update_permissions, h,
        opinsert, hmem]
    · exact hmem
  · simp [update_operators, supports_operator, update_operators_list,
      update_operators_one, check_operator_update_permissions, h]
  · exact opmem_opremove_self s.operators p
  · intro s1 h1
    simp [update_operators, supports_operator, update_operators_list,
      update_operators_one, check_operator_update_permissions, h] at h1
    rw [← h1]
    exact opmem_opinsert_self s.operators p

/-- C9: the balance query checks definedness before looking at the ledger
(`FA2_TOKEN_UNDEFINED` on an unregistered id), then answers 1 exactly when
the ledger owner is the queried address; `total_supply` likewise fails on an
unregistered id and returns 1 on every registered one. -/
theorem C9_balance_query (s : Storage) (owner : Address) (tid : Nat) :
    (is_defined s tid = false →
      balance_ s owner tid = Except.error FA2Error.FA2_TOKEN_UNDEFINED ∧
      total_supply s tid = Except.error FA2Error.FA2_TOKEN_UNDEFINED) ∧
    (∀ a, is_defined s tid = true → alookup s.ledger tid = some a →
      balance_ s owner tid = Except.ok (if a = owner then 1 else 0)) ∧
    (is_defined s tid = true → total_supply s tid = Except.ok 1) := by
  refine ⟨?_, ?_, ?_⟩
  · intro h
    constructor
    · unfold balance_
      simp [h]
    · unfold total_supply
      simp [h]
  · intro a hdef hled
    unfold balance_
    simp [hdef, hled]
  · intro hdef
    unfold total_supply supply_
    simp [hdef]

/-- C10: `update_usage` ignores the caller entirely; it fails with the
big-map access error (not `FA2_TOKEN_UNDEFINED`) when the token id has no
`token_metadata` entry or the entry has no `"usage"` key, and when the key
holds a packed integer `n` it succeeds and `get_usage` afterwards returns
`n + 1`. -/
theorem C10_update_usage (s : Storage) (tid : Nat) :
    (∀ sender1 sender2 : Address,
      update_usage_entry sender1 s tid = update_usage_entry sender2 s tid) ∧
    (alookup s.token_metadata tid = none →
      update_usage s tid = Except.error FA2Error.MissingBigMapKey) ∧
    (∀ entry, alookup s.token_metadata tid = some entry →
      alookup entry.token_info "usage" = none →
      update_usage s tid = Except.error FA2Error.MissingBigMapKey) ∧
    (∀ entry n, alookup s.token_metadata tid = some entry →
      alookup entry.token_info "usage" = some (pack n) →
      ∃ s1, update_usage s tid = Except.ok s1 ∧
        get_usage s1 tid = Except.ok (n + 1)) := by
  refine ⟨fun _ _ => rfl, ?_, ?_, ?_⟩
  · intro h
    unfold update_usage
    simp [h]
  · intro entry h1 h2
    unfold update_usage
    simp [h1, h2]
  · intro entry n h1 h2
    refine ⟨{ s with
      token_metadata :=
        aset s.token_metadata tid
          ⟨entry.token_id, aset entry.token_info "usage" (pack (n + 1))⟩ }, ?_, ?_⟩
    · unfold update_usage
      simp [h1, h2, pack, unpack]
    · unfold get_usage
      simp [alookup_aset_self, pack, unpack]

/-- An operator permission granted by the owner of token 0 to the
administrator address. -/
def pEx : OperatorPermission :=
  ⟨"tz1Vf4cQ6dcywPXVY6QZnsMELEzXNSX9yMxL",
   "tz1PaBo1wAwoSipwW2ubbotpywAZaPuC3oQ9", 0⟩

/-- `s1ex` with the grant `pEx` already present. -/
def s2ex : Storage := { s1ex with operators := [pEx] }

/-- C8 instantiated: re-adding the present grant `pEx` leaves the storage
unchanged and `is_operator` still true. -/
theorem C8_operator_idempotence_witness :
    update_operators "tz1Vf4cQ6dcywPXVY6QZnsMELEzXNSX9yMxL" s2ex
        [UpdateOperatorAction.add_operator pEx] = Except.ok s2ex ∧
    is_operator s2ex pEx = true :=
  (C8_operator_idempotence s2ex "tz1Vf4cQ6dcywPXVY6QZnsMELEzXNSX9yMxL" pEx
    rfl).1 (by decide)

/-! ### Invariant preservation -/

theorem transfer_one_ok_defined (sender from_ : Address) (s s1 : Storage)
    (tx : TransferTx) (h : transfer_one sender from_ s tx = Except.ok s1) :
    is_defined s tx.token_id = true := by
  by_cases hd : is_defined s tx.token_id = true
  · exact hd
  · unfold transfer_one at h
    rw [if_neg hd] at h
    cases h

theorem transfer_one_preserves_Inv (sender from_ : Address) (s s1 : Storage)
    (tx : TransferTx) (hInv : Inv s)
    (h : transfer_one sender from_ s tx = Except.ok s1) : Inv s1 := by
  have hdef := transfer_one_ok_defined sender from_ s s1 tx h
  have hs1 := transfer_one_ok_eq sender from_ s s1 tx h
  subst hs1
  unfold apply_tx
  obtain ⟨c1, c2⟩ := hInv
  by_cases ha : tx.amount > 0
  · rw [if_pos ha]
    constructor
    · intro i
      exact c1 i
    · intro i a hia
      rcases alookup_aset_cases s.ledger tx.token_id i tx.to_ a hia with
        ⟨hi, _⟩ | ⟨_, hold⟩
      · rw [hi]
        exact (c1 tx.token_id).mp hdef
      · exact c2 i a hold
  · rw [if_neg ha]
    exact ⟨c1, c2⟩

theorem transfer_txs_preserves_Inv (sender from_ : Address)
    (txs : List TransferTx) :
    ∀ s s1, Inv s → transfer_txs sender from_ s txs = Except.ok s1 → Inv s1 := by
  induction txs with
  | nil =>
    intro s s1 hInv h
    cases h
    exact hInv
  | cons tx rest ih =>
    intro s s1 hInv h
    unfold transfer_txs at h
    cases h1 : transfer_one sender from_ s tx with
    | error e => rw [h1] at h; cases h
    | ok s2 =>
      rw [h1] at h
      exact ih s2 s1 (transfer_one_preserves_Inv sender from_ s s2 tx hInv h1) h

theorem transfer_batches_preserves_Inv (sender : Address)
    (batch : List TransferBatch) :
    ∀ s s1, Inv s → transfer_batches sender s batch = Except.ok s1 → Inv s1 := by
  induction batch with
  | nil =>
    intro s s1 hInv h
    cases h
    exact hInv
  | cons b rest ih =>
    intro s s1 hInv h
    unfold transfer_batches at h
    cases h1 : transfer_txs sender b.from_ s b.txs with
    | error e => rw [h1] at h; cases h
    | ok s2 =>
      rw [h1] at h
      exact ih s2 s1
        (transfer_txs_preserves_Inv sender b.from_ b.txs s s2 hInv h1) h

theorem update_operators_one_frame (sender : Address) (s s1 : Storage)
    (a : UpdateOperatorAction)
    (h : update_operators_one sender s a = Except.ok s1) :
    s1.token_metadata = s.token_metadata ∧ s1.ledger = s.ledger ∧
      s1.last_token_id = s.last_token_id := by
  cases a with
  | add_operator p =>
    unfold update_operators_one at h
    dsimp only at h
    cases hc : check_operator_update_permissions sender p with
    | error e => rw [hc] at h; cases h
    | ok u =>
      rw [hc] at h
      cases h
      exact ⟨rfl, rfl, rfl⟩
  | remove_operator p =>
    unfold update_operators_one at h
    dsimp only at h
    cases hc : check_operator_update_permissions sender p with
    | error e => rw [hc] at h; cases h
    | ok u =>
      rw [hc] at h
      cases h
      exact ⟨rfl, rfl, rfl⟩

theorem update_operators_list_frame (sender : Address)
    (acts : List UpdateOperatorAction) :
    ∀ s s1, update_operators_list sender s acts = Except.ok s1 →
      s1.token_metadata = s.token_metadata ∧ s1.ledger = s.ledger ∧
        s1.last_token_id = s.last_token_id := by
  induction acts with
  | nil =>
    intro s s1 h
    cases h
    exact ⟨rfl, rfl, rfl⟩
  | cons a rest ih =>
    intro s s1 h
    unfold update_operators_list at h
    cases h1 : update_operators_one sender s a with
    | error e => rw [h1] at h; cases h
    | ok s2 =>
      rw [h1] at h
      obtain ⟨f1, f2, f3⟩ := update_operators_one_frame sender s s2 a h1
      obtain ⟨g1, g2, g3⟩ := ih s2 s1 h
      exact ⟨g1.trans f1, g2.trans f2, g3.trans f3⟩

theorem update_operators_preserves_Inv (sender : Address) (s s1 : Storage)
    (acts : List UpdateOperatorAction) (hInv : Inv s)
    (h : update_operators sender s acts = Except.ok s1) : Inv s1 := by
  have hl : update_operators_list sender s acts = Except.ok s1 := by
    simpa [update_operators, supports_operator] using h
  obtain ⟨f1, f2, f3⟩ := update_operators_list_frame sender acts s s1 hl
  obtain ⟨c1, c2⟩ := hInv
  constructor
  · intro i
    rw [f1, f3]
    exact c1 i
  · intro i a ha
    rw [f3]
    rw [f2] at ha
    exact c2 i a ha

theorem mint_preserves_Inv (sender owner : Address) (s s1 : Storage)
    (ti : List (String × Bytes)) (hInv : Inv s)
    (h : mint sender s owner ti = Except.ok s1) : Inv s1 := by
  unfold mint at h
  by_cases hadm : is_administrator s sender = true
  · rw [if_pos hadm] at h
    cases h
    obtain ⟨c1, c2⟩ := hInv
    constructor
    · intro i
      show (alookup (aset s.token_metadata s.last_token_id
        ⟨s.last_token_id, ti⟩) i).isSome = true ↔ i < s.last_token_id + 1
      rw [isSome_alookup_aset]
      constructor
      · rintro (hi | hi)
        · omega
        · have := (c1 i).mp hi
          omega
      · intro hi
        by_cases hieq : i = s.last_token_id
        · exact Or.inl hieq
        · right
          exact (c1 i).mpr (by omega)
    · intro i a ha
      show i < s.last_token_id + 1
      rcases alookup_aset_cases s.ledger s.last_token_id i owner a ha with
        ⟨hi, _⟩ | ⟨_, hold⟩
      · omega
      · have := c2 i a hold
        omega
  · rw [if_neg hadm] at h
    cases h

theorem update_usage_preserves_Inv (s s1 : Storage) (tid : Nat)
    (hInv : Inv s) (h : update_usage s tid = Except.ok s1) : Inv s1 := by
  unfold update_usage at h
  cases h1 : alookup s.token_metadata tid with
  | none => rw [h1] at h; cases h
  | some entry =>
    rw [h1] at h
    simp only at h
    cases h2 : alookup entry.token_info "usage" with
    | none => rw [h2] at h; cases h
    | some b =>
      rw [h2] at h
      simp only at h
      cases h3 : unpack b with
      | none => rw [h3] at h; cases h
      | some n =>
        rw [h3] at h
        simp only at h
        cases h
        obtain ⟨c1, c2⟩ := hInv
        constructor
        · intro i
          show (alookup (aset s.token_metadata tid _) i).isSome = true ↔
            i < s.last_token_id
          rw [isSome_alookup_aset]
          constructor
          · rintro (hi | hi)
            · rw [hi]
              exact (c1 tid).mp (by rw [h1]; rfl)
            · exact (c1 i).mp hi
          · intro hi
            exact Or.inr ((c1 i).mpr hi)
        · exact c2

theorem Inv_fresh_id (s : Storage) (hInv : Inv s) :
    alookup s.token_metadata s.last_token_id = none := by
  obtain ⟨c1, _⟩ := hInv
  cases hl : alookup s.token_metadata s.last_token_id with
  | none => rfl
  | some e =>
    have h2 : (alookup s.token_metadata s.last_token_id).isSome = true := by
      rw [hl]
      rfl
    have h3 := (c1 s.last_token_id).mp h2
    omega

/-- C6: the id-bookkeeping invariant — the registered token ids are exactly
`0..last_token_id-1` and every ledger entry is on a registered id — is
preserved by every entry point, and under it the id `mint` assigns,
`last_token_id`, is never already registered, so the duplicate-token
condition is unreachable. -/
theorem C6_token_id_invariant (s : Storage) (hInv : Inv s) :
    (∀ sender batch s1, transfer sender s batch = Except.ok s1 → Inv s1) ∧
    (∀ sender acts s1, update_operators sender s acts = Except.ok s1 → Inv s1) ∧
    (∀ sender owner ti s1, mint sender s owner ti = Except.ok s1 → Inv s1) ∧
    (∀ tid s1, update_usage s tid = Except.ok s1 → Inv s1) ∧
    (∀ sender a s1, set_administrator sender s a = Except.ok s1 → Inv s1) ∧
    (∀ sender m s1, set_metadata sender s m = Except.ok s1 → Inv s1) ∧
    alookup s.token_metadata s.last_token_id = none := by
  refine ⟨?_, ?_, ?_, ?_, ?_, ?_, Inv_fresh_id s hInv⟩
  · intro sender batch s1 h
    have hb : transfer_batches sender s batch = Except.ok s1 := by
      simpa [transfer, supports_transfer] using h
    exact transfer_batches_preserves_Inv sender batch s s1 hInv hb
  · intro sender acts s1 h
    exact update_operators_preserves_Inv sender s s1 acts hInv h
  · intro sender owner ti s1 h
    exact mint_preserves_Inv sender owner s s1 ti hInv h
  · intro tid s1 h
    exact update_usage_preserves_Inv s s1 tid hInv h
  · intro sender a s1 h
    unfold set_administrator at h
    by_cases hadm : is_administrator s sender = true
    · rw [if_pos hadm] at h
      cases h
      exact hInv
    · rw [if_neg hadm] at h
      cases h
  · intro sender m s1 h
    unfold set_metadata at h
    by_cases hadm : is_administrator s sender = true
    · rw [if_pos hadm] at h
      cases h
      exact hInv
    · rw [if_neg hadm] at h
      cases h

/-- C6 instantiated: in the freshly originated storage the invariant holds
and the next id to be minted, 0, is not yet registered. -/
theorem C6_token_id_invariant_witness :
    alookup s0ex.token_metadata s0ex.last_token_id = none := by
  have hInv : Inv s0ex := by
    constructor
    · intro i
      simp [s0ex, alookup]
    · intro i a h
      simp [s0ex, alookup] at h
  exact (C6_token_id_invariant s0ex hInv).2.2.2.2.2.2

end PirataNft
